/-
Verification development for the ReportPortal analytics engine
(src/utils/rp_analytics.py, class ReportPortalAnalytics).

The engine is shallowly embedded: Python dictionaries with string keys
become Lean structures with Option-typed fields (a missing key is none,
and item.get(k, d) becomes field.getD d); the two constructor inputs
launches_data and test_items_data become a List Launch and an
association list from launch id to its test item list (Python dict
iteration order is insertion order, so an association list preserves
the iteration semantics); Python float arithmetic is modelled exactly
in the rationals; statistics.stdev, which takes a real square root, is
modelled with Real.sqrt over the exact sample variance.

Fields of the source dictionaries that no verified property mentions
(median_tests_per_launch, test_execution_trend, duration_std,
median_test_duration, slowest_tests, failure_categories) are omitted
from the embedded records; every field that is embedded follows the
source expression for it.
-/
import Mathlib

/-- A test item record, as produced by the aggregation service.  Fields are
optional because the source accesses them with item.get defaults. -/
structure TestItem where
  name : Option String
  status : Option String
  description : Option String
  duration : Option ℚ
deriving DecidableEq

/-- A launch summary record.  The count fields are the non-negative integers
of the data model; startTime is milliseconds since epoch, none when the
record has no startTime key. -/
structure Launch where
  startTime : Option ℤ
  total : ℕ
  passed : ℕ
  failed : ℕ
  skipped : ℕ
deriving DecidableEq

/-- The test_items_data constructor input: launch id mapped to its items. -/
abbrev TestItemsData := List (String × List TestItem)

/-- Arithmetic mean of a list of rationals (statistics.mean). -/
def listMean (xs : List ℚ) : ℚ := xs.sum / xs.length

/-- Sample variance with Bessel correction, the square of statistics.stdev. -/
def sampleVariance (xs : List ℚ) : ℚ :=
  (xs.map (fun x => (x - listMean xs) ^ 2)).sum / ((xs.length : ℚ) - 1)

/-- Helper for firstDedup: seen holds the elements already emitted. -/
def firstDedupAux (seen : List String) : List String → List String
  | [] => []
  | a :: l =>
    if a ∈ seen then firstDedupAux seen l
    else a :: firstDedupAux (a :: seen) l

/-- Deduplication keeping the first occurrence of each element, the key
order of a Python dict or collections.Counter built by insertion. -/
def firstDedup (l : List String) : List String := firstDedupAux [] l

theorem mem_firstDedupAux {x : String} :
    ∀ (seen l : List String), x ∈ firstDedupAux seen l ↔ (x ∈ l ∧ x ∉ seen)
  | seen, [] => by simp [firstDedupAux]
  | seen, a :: l => by
    rw [firstDedupAux]
    by_cases ha : a ∈ seen
    · rw [if_pos ha, mem_firstDedupAux seen l]
      by_cases hxa : x = a
      · subst hxa
        simp [ha]
      · simp [hxa]
    · rw [if_neg ha]
      simp only [List.mem_cons, mem_firstDedupAux (a :: seen) l]
      by_cases hxa : x = a
      · subst hxa
        simp [ha]
      · simp [hxa]

theorem mem_firstDedup {x : String} {l : List String} :
    x ∈ firstDedup l ↔ x ∈ l := by
  rw [firstDedup, mem_firstDedupAux]
  simp

/-! ## Flaky test detection (detect_flaky_tests, lines 51-105) -/

/-- The (name, status) pairs appended to the test_results defaultdict while
iterating test_items_data: items whose name or status is missing or empty
are skipped by the guard on line 72. -/
def allOccurrences (data : TestItemsData) : List (String × String) :=
  data.flatMap (fun p => p.2.filterMap (fun it =>
    let n := it.name.getD ""
    let s := it.status.getD ""
    if n ≠ "" ∧ s ≠ "" then some (n, s) else none))

/-- The status list test_results[name], in aggregation order. -/
def statusesOf (data : TestItemsData) (name : String) : List String :=
  (allOccurrences data).filterMap (fun p => if p.1 = name then some p.2 else none)

/-- The keys of test_results, in first-insertion order. -/
def testNames (data : TestItemsData) : List String :=
  firstDedup ((allOccurrences data).map Prod.fst)

/-- Number of adjacent pairs with differing statuses (lines 90-91). -/
def switches : List String → ℕ
  | a :: b :: rest => (if b ≠ a then 1 else 0) + switches (b :: rest)
  | _ => 0

/-- One flaky-test record of the output list (lines 94-102). -/
structure FlakyRecord where
  test_name : String
  total_runs : ℕ
  passed : ℕ
  failed : ℕ
  skipped : ℕ
  flaky_score : ℚ
  status_distribution : List (String × ℕ)
deriving DecidableEq

/-- The body of the per-test loop (lines 76-102): the record for a test
name with status list statuses, none when any filter rejects it. -/
def flakyRecordFor (minOcc : ℕ) (name : String) (statuses : List String) :
    Option FlakyRecord :=
  if minOcc ≤ statuses.length then
    if 1 < (firstDedup statuses).length then
      if 0 < statuses.count "PASSED" ∧ 0 < statuses.count "FAILED" then
        some
          { test_name := name
            total_runs := statuses.length
            passed := statuses.count "PASSED"
            failed := statuses.count "FAILED"
            skipped := statuses.count "SKIPPED"
            flaky_score :=
              if 1 < statuses.length then
                ((switches statuses : ℚ) / ((statuses.length : ℚ) - 1)) * 100
              else 0
            status_distribution :=
              (firstDedup statuses).map (fun s => (s, statuses.count s)) }
      else none
    else none
  else none

/-- Stable insertion into a list sorted descending by flaky_score. -/
def insertByScoreDesc (r : FlakyRecord) : List FlakyRecord → List FlakyRecord
  | [] => [r]
  | a :: t =>
    if a.flaky_score ≤ r.flaky_score then r :: a :: t
    else a :: insertByScoreDesc r t

/-- The stable descending sort of line 105 (sorted with reverse=True). -/
def sortByScoreDesc : List FlakyRecord → List FlakyRecord
  | [] => []
  | a :: t => insertByScoreDesc a (sortByScoreDesc t)

/-- The flaky list before sorting, as a function of the aggregated
occurrence list. -/
def detectCore (occ : List (String × String)) (minOcc : ℕ) : List FlakyRecord :=
  (firstDedup (occ.map Prod.fst)).filterMap (fun n =>
    flakyRecordFor minOcc n
      (occ.filterMap (fun p => if p.1 = n then some p.2 else none)))

/-- detect_flaky_tests (lines 51-105).  The default of min_occurrences is 3. -/
def detect_flaky_tests (data : TestItemsData) (minOcc : ℕ := 3) :
    List FlakyRecord :=
  sortByScoreDesc (detectCore (allOccurrences data) minOcc)

theorem mem_insertByScoreDesc {x r : FlakyRecord} :
    ∀ {l : List FlakyRecord}, x ∈ insertByScoreDesc r l ↔ x = r ∨ x ∈ l
  | [] => by simp [insertByScoreDesc]
  | a :: t => by
    rw [insertByScoreDesc]
    split
    · simp
    · simp only [List.mem_cons, @mem_insertByScoreDesc x r t]
      tauto

theorem mem_sortByScoreDesc {x : FlakyRecord} :
    ∀ {l : List FlakyRecord}, x ∈ sortByScoreDesc l ↔ x ∈ l
  | [] => Iff.rfl
  | a :: t => by
    rw [sortByScoreDesc, mem_insertByScoreDesc]
    simp [@mem_sortByScoreDesc x t]

/-! ## Failure pattern analysis (analyze_failure_patterns, lines 107-140,
and _extract_error_pattern, lines 302-329) -/

/-- Lowercased character list of a string, modelling re.IGNORECASE on the
ASCII patterns of the source. -/
def lowerChars (s : String) : List Char := s.toList.map Char.toLower

/-- re.search as a scan: the predicate holds of some suffix of the text. -/
def searchFrom (p : List Char → Bool) : List Char → Bool
  | [] => p []
  | c :: t => p (c :: t) || searchFrom p t

/-- A literal pattern, searched case-insensitively: pat is given already
lowercased and the text is lowercased by the caller. -/
def litPat (pat : String) (low : List Char) : Bool :=
  searchFrom (fun s => pat.toList.isPrefixOf s) low

/-- Three ASCII digits at the head of the text. -/
def threeDigits : List Char → Bool
  | a :: b :: c :: _ => a.isDigit && b.isDigit && c.isDigit
  | _ => false

/-- The pattern HTTP followed by a space and three digits. -/
def httpPat (low : List Char) : Bool :=
  searchFrom (fun s => "http ".toList.isPrefixOf s && threeDigits (s.drop 5)) low

/-- The regex fragment dot-star followed by a literal: pat occurs later in
the text with no newline consumed before it (the regex dot does not match
a newline). -/
def dotStarThen (pat : List Char) : List Char → Bool
  | [] => pat.isPrefixOf []
  | c :: t => pat.isPrefixOf (c :: t) || (c ≠ '\n' && dotStarThen pat t)

/-- A pattern of the shape A dot-star B, searched case-insensitively. -/
def gapPat (a b : String) (low : List Char) : Bool :=
  searchFrom (fun s => a.toList.isPrefixOf s && dotStarThen b.toList (s.drop a.length)) low

/-- The fixed pattern list of lines 308-318, each paired with a decision
procedure for whether re.search finds it in the lowercased text. -/
def knownPatterns : List (String × (List Char → Bool)) :=
  [ ("TimeoutException", litPat "timeoutexception"),
    ("ConnectionError", litPat "connectionerror"),
    ("AssertionError", litPat "assertionerror"),
    ("NullPointerException", litPat "nullpointerexception"),
    ("FileNotFoundException", litPat "filenotfoundexception"),
    ("HTTP \\d{3}", httpPat),
    ("Database.*Error", gapPat "database" "error"),
    ("Authentication.*Failed", gapPat "authentication" "failed"),
    ("Permission.*Denied", gapPat "permission" "denied") ]

/-- A word character of the regex class backslash-w, ASCII. -/
def isWordChar (c : Char) : Bool := c.isAlphanum || c = '_'

/-- Splits the text into its maximal word-character runs, left to right;
acc holds the current run reversed. -/
def splitRuns (acc : List Char) : List Char → List (List Char)
  | [] => if acc = [] then [] else [acc.reverse]
  | c :: t =>
    if isWordChar c then splitRuns (c :: acc) t
    else if acc = [] then splitRuns [] t
    else acc.reverse :: splitRuns [] t

/-- The maximal word runs of the text. -/
def wordRuns (s : List Char) : List (List Char) := splitRuns [] s

/-- Whether a word run is matched by the fallback regex of line 325: the
run ends, case-insensitively, in Error, Exception, Failed or Timeout (a
match must start at a word boundary, hence at the start of a run, and the
final word-boundary assertion forces the alternative to end the run, so
the matched text is the whole run). -/
def runMatches (run : List Char) : Bool :=
  let lr := run.map Char.toLower
  ["error", "exception", "failed", "timeout"].any (fun k => k.toList.isSuffixOf lr)

/-- The text returned by match.group() on line 327: the first word run the
fallback regex matches. -/
def fallbackToken (s : List Char) : Option (List Char) :=
  (wordRuns s).find? runMatches

/-- _extract_error_pattern (lines 302-329).  An empty description returns
none (the guard on lines 304-305); otherwise the first matching known
pattern is returned verbatim, else the first error-like word, else the
literal Unknown Error. -/
def _extract_error_pattern (description : String) : Option String :=
  if description = "" then none
  else
    match knownPatterns.find? (fun p => p.2 (lowerChars description)) with
    | some p => some p.1
    | none =>
      match fallbackToken description.toList with
      | some run => some (String.mk run)
      | none => some "Unknown Error"

/-- One entry of a failure_patterns bucket (lines 125-129). -/
structure FailureEntry where
  test_name : String
  launch_id : String
  description : String
deriving DecidableEq

/-- The (signature, entry) pairs appended to failure_patterns while
iterating test_items_data (lines 115-130): FAILED items whose extracted
pattern is truthy. -/
def failedEntries (data : TestItemsData) : List (String × FailureEntry) :=
  data.flatMap (fun p => p.2.filterMap (fun it =>
    if it.status.getD "" = "FAILED" then
      match _extract_error_pattern (it.description.getD "") with
      | some sig => some (sig, ⟨it.name.getD "", p.1, it.description.getD ""⟩)
      | none => none
    else none))

/-- The keys of the failure_patterns defaultdict, in insertion order. -/
def failurePatternKeys (data : TestItemsData) : List String :=
  firstDedup ((failedEntries data).map Prod.fst)

/-- The bucket failure_patterns[sig], in insertion order. -/
def failurePatternsGet (data : TestItemsData) (sig : String) : List FailureEntry :=
  (failedEntries data).filterMap (fun p => if p.1 = sig then some p.2 else none)

/-- total_unique_failures (line 139): the number of distinct signatures. -/
def total_unique_failures (data : TestItemsData) : ℕ :=
  (failurePatternKeys data).length

/-! ## Duration analytics (calculate_test_duration_analytics, lines 142-180) -/

/-- The durations list of lines 147-155: every item with a positive
duration, converted from milliseconds to seconds. -/
def positiveDurations (data : TestItemsData) : List ℚ :=
  data.flatMap (fun p => p.2.filterMap (fun it =>
    let d := it.duration.getD 0
    if 0 < d then some (d / 1000) else none))

/-- The embedded fields of the duration analytics record (lines 165-172). -/
structure DurationAnalytics where
  avg_test_duration : ℚ
  min_test_duration : ℚ
  max_test_duration : ℚ
  total_tests_with_duration : ℕ
deriving DecidableEq

/-- calculate_test_duration_analytics (lines 142-180): none models the
empty dict returned when there is no usable data. -/
def calculate_test_duration_analytics (data : TestItemsData) :
    Option DurationAnalytics :=
  if data = [] then none
  else
    match positiveDurations data with
    | [] => none
    | d :: rest =>
      some
        { avg_test_duration := listMean (d :: rest)
          min_test_duration := rest.foldl min d
          max_test_duration := rest.foldl max d
          total_tests_with_duration := (d :: rest).length }

/-! ## Execution metrics (calculate_test_execution_metrics, lines 24-49,
_calculate_avg_pass_rate, lines 247-259, _calculate_pass_rate_std,
lines 261-273) -/

/-- Sum of the passed counts across launches. -/
def totalPassed (ls : List Launch) : ℕ := (ls.map Launch.passed).sum

/-- Sum of the failed counts across launches. -/
def totalFailed (ls : List Launch) : ℕ := (ls.map Launch.failed).sum

/-- The pass rate of a single launch with a positive decisive count. -/
def launchPassRate (l : Launch) : ℚ :=
  ((l.passed : ℚ) / ((l.passed : ℚ) + (l.failed : ℚ))) * 100

/-- overall_pass_rate (lines 41-43): pooled counts, 0 when the pooled
denominator is zero. -/
def overall_pass_rate (ls : List Launch) : ℚ :=
  if 0 < totalPassed ls + totalFailed ls then
    ((totalPassed ls : ℚ) / ((totalPassed ls : ℚ) + (totalFailed ls : ℚ))) * 100
  else 0

/-- The pass_rates list built by the row loop of lines 252-257 and 266-271:
launches whose decisive count is zero are skipped, the rest append their
own pass rate. -/
def passRatesOf (ls : List Launch) : List ℚ :=
  ls.foldl (fun acc l =>
    if 0 < l.passed + l.failed then acc ++ [launchPassRate l] else acc) []

/-- _calculate_avg_pass_rate (lines 247-259). -/
def _calculate_avg_pass_rate (ls : List Launch) : ℚ :=
  if ls = [] then 0
  else if passRatesOf ls ≠ [] then listMean (passRatesOf ls) else 0

/-- _calculate_pass_rate_std (lines 261-273): statistics.stdev of the
qualifying pass rates, 0 with fewer than two of them. -/
noncomputable def _calculate_pass_rate_std (ls : List Launch) : ℝ :=
  if ls = [] then 0
  else if 1 < (passRatesOf ls).length then
    Real.sqrt (sampleVariance (passRatesOf ls))
  else 0

/-- The embedded fields of the metrics dict of lines 33-47. -/
structure ExecMetrics where
  total_launches : ℕ
  total_tests_executed : ℕ
  avg_tests_per_launch : ℚ
  total_passed : ℕ
  total_failed : ℕ
  total_skipped : ℕ
  overall_pass_rate : ℚ
  avg_pass_rate : ℚ
deriving DecidableEq

/-- calculate_test_execution_metrics (lines 24-49): none models the empty
dict returned for an empty launch list. -/
def calculate_test_execution_metrics (ls : List Launch) : Option ExecMetrics :=
  if ls = [] then none
  else
    some
      { total_launches := ls.length
        total_tests_executed := (ls.map Launch.total).sum
        avg_tests_per_launch := listMean (ls.map (fun l => (l.total : ℚ)))
        total_passed := totalPassed ls
        total_failed := totalFailed ls
        total_skipped := (ls.map Launch.skipped).sum
        overall_pass_rate := overall_pass_rate ls
        avg_pass_rate := _calculate_avg_pass_rate ls }

/-! ## Historical comparison (generate_historical_comparison, lines 182-211,
and _calculate_metrics_for_df, lines 363-373)

The guard on line 184 tests for the start_time column, which only exists
after calculate_test_execution_metrics has run on the same instance (it is
created on line 31, and only when some launch record carries a startTime
key).  The engine state that matters to this operation is therefore the
single boolean execMetricsCalled, passed explicitly; nowMs is the
wall-clock datetime.now() in milliseconds since epoch. -/

/-- The per-row pass rate of _calculate_metrics_for_df (lines 369-370):
unlike _calculate_avg_pass_rate, a row with a zero decisive count
contributes 0 to the mean instead of being skipped. -/
def rowPassRate (l : Launch) : ℚ :=
  if 0 < l.passed + l.failed then launchPassRate l else 0

/-- The three metrics of _calculate_metrics_for_df (lines 363-373); none
models the empty dict for an empty partition. -/
structure PartitionMetrics where
  avg_pass_rate : ℚ
  avg_tests_per_launch : ℚ
  total_tests : ℚ
deriving DecidableEq

/-- _calculate_metrics_for_df (lines 363-373). -/
def _calculate_metrics_for_df (ls : List Launch) : Option PartitionMetrics :=
  if ls = [] then none
  else
    some
      { avg_pass_rate := listMean (ls.map rowPassRate)
        avg_tests_per_launch := listMean (ls.map (fun l => (l.total : ℚ)))
        total_tests := ((ls.map Launch.total).sum : ℚ) }

/-- The recent partition (line 191): launches whose start time is present
and at least the cutoff; a missing start time compares as NaT, false. -/
def partitionRecent (ls : List Launch) (cutoff : ℤ) : List Launch :=
  ls.filter (fun l => match l.startTime with
    | some t => cutoff ≤ t
    | none => false)

/-- The historical partition (line 192). -/
def partitionHist (ls : List Launch) (cutoff : ℤ) : List Launch :=
  ls.filter (fun l => match l.startTime with
    | some t => t < cutoff
    | none => false)

/-- The comparison dict: each field models the triple of keys
metric_change, metric_recent, metric_historical, absent as a group when
the guard of line 205 rejects the metric. -/
structure HistComparison where
  avg_pass_rate_keys : Option (ℚ × ℚ × ℚ)
  avg_tests_per_launch_keys : Option (ℚ × ℚ × ℚ)
  total_tests_keys : Option (ℚ × ℚ × ℚ)
deriving DecidableEq

/-- The empty comparison dict. -/
def emptyComparison : HistComparison := ⟨none, none, none⟩

/-- The loop body of lines 201-209 for one metric: values default to 0
when a partition produced no metrics dict, and the keys are emitted only
when the historical value is positive. -/
def metricKeys (recentM histM : Option PartitionMetrics)
    (f : PartitionMetrics → ℚ) : Option (ℚ × ℚ × ℚ) :=
  let r := (recentM.map f).getD 0
  let h := (histM.map f).getD 0
  if 0 < h then some (((r - h) / h) * 100, r, h) else none

/-- Milliseconds in a day, for timedelta(days=n). -/
def msPerDay : ℤ := 86400000

/-- generate_historical_comparison (lines 182-211).  The default of
days_back is 30. -/
def generate_historical_comparison (ls : List Launch)
    (execMetricsCalled : Bool) (nowMs : ℤ) (daysBack : ℤ := 30) :
    HistComparison :=
  if ls = [] then emptyComparison
  else if ¬ (execMetricsCalled && ls.any (fun l => l.startTime.isSome)) then
    emptyComparison
  else
    let cutoff := nowMs - daysBack * msPerDay
    let recent := partitionRecent ls cutoff
    let hist := partitionHist ls cutoff
    if recent = [] ∨ hist = [] then emptyComparison
    else
      let rm := _calculate_metrics_for_df recent
      let hm := _calculate_metrics_for_df hist
      { avg_pass_rate_keys := metricKeys rm hm PartitionMetrics.avg_pass_rate
        avg_tests_per_launch_keys :=
          metricKeys rm hm PartitionMetrics.avg_tests_per_launch
        total_tests_keys := metricKeys rm hm PartitionMetrics.total_tests }

/-! ## Quality score (_calculate_quality_score, lines 375-398) -/

/-- Round half to even at integer precision, the rounding of the Python
built-in round. -/
def roundHalfEven (x : ℚ) : ℤ :=
  if x - ⌊x⌋ < 1 / 2 then ⌊x⌋
  else if 1 / 2 < x - ⌊x⌋ then ⌊x⌋ + 1
  else if ⌊x⌋ % 2 = 0 then ⌊x⌋ else ⌊x⌋ + 1

/-- round(x, 1): half-even rounding to one decimal digit. -/
def pythonRound1 (x : ℚ) : ℚ := (roundHalfEven (x * 10) : ℚ) / 10

/-- _calculate_quality_score (lines 375-398), as a function of the four
numbers it reads from its arguments: the overall pass rate, the length of
the flaky list, total_unique_failures and pass_rate_std. -/
def _calculate_quality_score (pass_rate : ℚ) (flakyCount uniqueFailures : ℕ)
    (passRateStd : ℚ) : ℚ :=
  let s1 := pass_rate
  let s2 := if 0 < flakyCount then s1 - min ((flakyCount : ℚ) * 2) 20 else s1
  let s3 :=
    if 5 < uniqueFailures then s2 - min (((uniqueFailures : ℚ) - 5) * 1.5) 15
    else s2
  let s4 :=
    if 10 < passRateStd then s3 - min ((passRateStd - 10) * 0.5) 10 else s3
  max 0 (min 100 (pythonRound1 s4))

/-- The quality score as the specification words it: the pass rate minus
three capped penalties, rounded to one decimal and clamped to [0, 100]. -/
def qualityScoreSpec (pr : ℚ) (f u : ℕ) (std : ℚ) : ℚ :=
  max 0 (min 100 (pythonRound1
    (pr - min ((f : ℚ) * 2) 20
        - min (max 0 ((u : ℚ) - 5) * 1.5) 15
        - min (max 0 (std - 10) * 0.5) 10)))

/-! ## Lemmas about half-even rounding -/

theorem floor_le_roundHalfEven (x : ℚ) : ⌊x⌋ ≤ roundHalfEven x := by
  unfold roundHalfEven
  split_ifs <;> omega

theorem roundHalfEven_le_floor_add_one (x : ℚ) : roundHalfEven x ≤ ⌊x⌋ + 1 := by
  unfold roundHalfEven
  split_ifs <;> omega

theorem roundHalfEven_mono {x y : ℚ} (h : x ≤ y) :
    roundHalfEven x ≤ roundHalfEven y := by
  rcases lt_or_eq_of_le (Int.floor_le_floor h) with hf | hf
  · calc roundHalfEven x ≤ ⌊x⌋ + 1 := roundHalfEven_le_floor_add_one x
      _ ≤ ⌊y⌋ := by omega
      _ ≤ roundHalfEven y := floor_le_roundHalfEven y
  · unfold roundHalfEven
    rw [← hf]
    have hfr : x - ⌊x⌋ ≤ y - ⌊x⌋ := by linarith
    split_ifs <;> first | omega | linarith

theorem pythonRound1_mono {x y : ℚ} (h : x ≤ y) :
    pythonRound1 x ≤ pythonRound1 y := by
  unfold pythonRound1
  have h10 : x * 10 ≤ y * 10 := by linarith
  have := roundHalfEven_mono h10
  have hc : ((roundHalfEven (x * 10) : ℚ)) ≤ ((roundHalfEven (y * 10) : ℚ)) :=
    Int.cast_le.mpr this
  linarith

/-- The inner score of _calculate_quality_score before rounding. -/
def rawQuality (pr : ℚ) (f u : ℕ) (std : ℚ) : ℚ :=
  pr - min ((f : ℚ) * 2) 20
     - min (max 0 ((u : ℚ) - 5) * 1.5) 15
     - min (max 0 (std - 10) * 0.5) 10

theorem sub_ite_pen (a p : ℚ) (c : Prop) [Decidable c] :
    (if c then a - p else a) = a - (if c then p else 0) := by
  split_ifs <;> simp

theorem penalty_flaky (f : ℕ) :
    (if 0 < f then min ((f : ℚ) * 2) 20 else 0) = min ((f : ℚ) * 2) 20 := by
  split_ifs with h
  · rfl
  · have hf : f = 0 := by omega
    subst hf
    norm_num

theorem penalty_unique (u : ℕ) :
    (if 5 < u then min (((u : ℚ) - 5) * 1.5) 15 else 0)
      = min (max 0 ((u : ℚ) - 5) * 1.5) 15 := by
  split_ifs with h
  · have h5 : (5 : ℚ) < (u : ℚ) := by exact_mod_cast h
    rw [max_eq_right (by linarith)]
  · have h5 : (u : ℚ) ≤ 5 := by exact_mod_cast Nat.le_of_not_lt h
    rw [max_eq_left (by linarith)]
    norm_num

theorem penalty_std (std : ℚ) :
    (if 10 < std then min ((std - 10) * 0.5) 10 else 0)
      = min (max 0 (std - 10) * 0.5) 10 := by
  split_ifs with h
  · rw [max_eq_right (by linarith)]
  · push_neg at h
    rw [max_eq_left (by linarith)]
    norm_num

theorem quality_eq_raw (pr : ℚ) (f u : ℕ) (std : ℚ) :
    _calculate_quality_score pr f u std
      = max 0 (min 100 (pythonRound1 (rawQuality pr f u std))) := by
  unfold _calculate_quality_score rawQuality
  dsimp only
  rw [sub_ite_pen, sub_ite_pen, sub_ite_pen, penalty_flaky, penalty_unique,
    penalty_std]

theorem quality_eq_spec (pr : ℚ) (f u : ℕ) (std : ℚ) :
    _calculate_quality_score pr f u std = qualityScoreSpec pr f u std := by
  rw [quality_eq_raw]
  rfl

theorem quality_mono_of_raw {pr pr' : ℚ} {f f' u u' : ℕ} {std std' : ℚ}
    (h : rawQuality pr' f' u' std' ≤ rawQuality pr f u std) :
    _calculate_quality_score pr' f' u' std' ≤ _calculate_quality_score pr f u std := by
  rw [quality_eq_raw, quality_eq_raw]
  exact max_le_max (le_refl 0)
    (min_le_min (le_refl 100) (pythonRound1_mono h))

/-- C1: the quality score produced for the executive summary equals the
overall pass rate minus the three capped penalties, rounded half-even to
one decimal and clamped to [0, 100]; for every input it lies in [0, 100]
and it is monotonically non-increasing in the flaky-test count, in the
unique-failure-pattern count above 5, and in the pass-rate standard
deviation above 10, the other inputs held fixed. -/
theorem C1_quality_score (pr : ℚ) (f u : ℕ) (std : ℚ) :
    _calculate_quality_score pr f u std = qualityScoreSpec pr f u std ∧
    0 ≤ _calculate_quality_score pr f u std ∧
    _calculate_quality_score pr f u std ≤ 100 ∧
    (∀ f', f ≤ f' →
      _calculate_quality_score pr f' u std ≤ _calculate_quality_score pr f u std) ∧
    (∀ u', 5 ≤ u → u ≤ u' →
      _calculate_quality_score pr f u' std ≤ _calculate_quality_score pr f u std) ∧
    (∀ std', 10 ≤ std → std ≤ std' →
      _calculate_quality_score pr f u std' ≤ _calculate_quality_score pr f u std) := by
  refine ⟨quality_eq_spec pr f u std, ?_, ?_, ?_, ?_, ?_⟩
  · rw [quality_eq_raw]
    exact le_max_left 0 _
  · rw [quality_eq_raw]
    exact max_le (by norm_num) (min_le_left 100 _)
  · intro f' hf
    apply quality_mono_of_raw
    unfold rawQuality
    have hc : (f : ℚ) ≤ (f' : ℚ) := by exact_mod_cast hf
    have : min ((f : ℚ) * 2) 20 ≤ min ((f' : ℚ) * 2) 20 :=
      min_le_min (by linarith) (le_refl 20)
    linarith
  · intro u' _ hu
    apply quality_mono_of_raw
    unfold rawQuality
    have hc : (u : ℚ) ≤ (u' : ℚ) := by exact_mod_cast hu
    have hm : max 0 ((u : ℚ) - 5) ≤ max 0 ((u' : ℚ) - 5) :=
      max_le_max (le_refl 0) (by linarith)
    have : min (max 0 ((u : ℚ) - 5) * 1.5) 15
        ≤ min (max 0 ((u' : ℚ) - 5) * 1.5) 15 :=
      min_le_min (by linarith) (le_refl 15)
    linarith
  · intro std' _ hs
    apply quality_mono_of_raw
    unfold rawQuality
    have hm : max 0 (std - 10) ≤ max 0 (std' - 10) :=
      max_le_max (le_refl 0) (by linarith)
    have : min (max 0 (std - 10) * 0.5) 10 ≤ min (max 0 (std' - 10) * 0.5) 10 :=
      min_le_min (by linarith) (le_refl 10)
    linarith

/-- C1 witness: the theorem applied at pass rate 80, 3 flaky tests, 8
unique failure patterns and a pass-rate deviation of 20, discharging the
monotonicity hypotheses at concrete neighbours. -/
theorem C1_quality_score_witness :
    _calculate_quality_score 80 3 8 20 = qualityScoreSpec 80 3 8 20 ∧
    _calculate_quality_score 80 4 8 20 ≤ _calculate_quality_score 80 3 8 20 ∧
    _calculate_quality_score 80 3 9 20 ≤ _calculate_quality_score 80 3 8 20 ∧
    _calculate_quality_score 80 3 8 25 ≤ _calculate_quality_score 80 3 8 20 :=
  ⟨(C1_quality_score 80 3 8 20).1,
   (C1_quality_score 80 3 8 20).2.2.2.1 4 (by norm_num),
   (C1_quality_score 80 3 8 20).2.2.2.2.1 9 (by norm_num) (by norm_num),
   (C1_quality_score 80 3 8 20).2.2.2.2.2 25 (by norm_num) (by norm_num)⟩

/-! ## Claims about the execution metrics -/

theorem passRatesOf_foldl (ls : List Launch) (acc : List ℚ) :
    ls.foldl (fun acc l =>
        if 0 < l.passed + l.failed then acc ++ [launchPassRate l] else acc) acc
      = acc ++ (ls.filter (fun l => 0 < l.passed + l.failed)).map launchPassRate := by
  induction ls generalizing acc with
  | nil => simp
  | cons l t ih =>
    simp only [List.foldl_cons, List.filter_cons]
    by_cases h : 0 < l.passed + l.failed
    · rw [if_pos h, if_pos (by exact decide_eq_true h), ih]
      simp
    · rw [if_neg h, if_neg (by simpa using h), ih]

theorem passRatesOf_eq (ls : List Launch) :
    passRatesOf ls
      = (ls.filter (fun l => 0 < l.passed + l.failed)).map launchPassRate := by
  unfold passRatesOf
  rw [passRatesOf_foldl]
  simp

/-- C6: the metrics computation is total, and overall_pass_rate equals the
pooled ratio 100 * passed / (passed + failed) when the denominator is
positive, is 0 when the denominator is 0, and always lies in [0, 100]. -/
theorem C6_overall_pass_rate (ls : List Launch) (m : ExecMetrics)
    (h : calculate_test_execution_metrics ls = some m) :
    (0 < m.total_passed + m.total_failed →
      m.overall_pass_rate
        = 100 * (m.total_passed : ℚ) / ((m.total_passed : ℚ) + (m.total_failed : ℚ))) ∧
    (m.total_passed + m.total_failed = 0 → m.overall_pass_rate = 0) ∧
    0 ≤ m.overall_pass_rate ∧ m.overall_pass_rate ≤ 100 := by
  unfold calculate_test_execution_metrics at h
  split_ifs at h
  injection h with h
  subst h
  dsimp only
  unfold overall_pass_rate
  refine ⟨?_, ?_, ?_, ?_⟩
  · intro hpos
    rw [if_pos hpos]
    ring
  · intro hz
    rw [if_neg (by omega)]
  · split_ifs with hpos
    · have h0 : (0 : ℚ) ≤ (totalPassed ls : ℚ) := by positivity
      have hd : (0 : ℚ) < (totalPassed ls : ℚ) + (totalFailed ls : ℚ) := by
        have : (0 : ℚ) < ((totalPassed ls + totalFailed ls : ℕ) : ℚ) := by
          exact_mod_cast hpos
        push_cast at this
        linarith
      positivity
    · exact le_refl 0
  · split_ifs with hpos
    · have hd : (0 : ℚ) < (totalPassed ls : ℚ) + (totalFailed ls : ℚ) := by
        have : (0 : ℚ) < ((totalPassed ls + totalFailed ls : ℕ) : ℚ) := by
          exact_mod_cast hpos
        push_cast at this
        linarith
      have hr : (totalPassed ls : ℚ) / ((totalPassed ls : ℚ) + (totalFailed ls : ℚ)) ≤ 1 := by
        rw [div_le_one hd]
        have : (0 : ℚ) ≤ (totalFailed ls : ℚ) := by positivity
        linarith
      linarith
    · norm_num

/-- C6 witness: the metrics of the end-to-end scenario of the spec, three
launches with passed 8, 9, 7 and failed 2, 1, 3, whose overall pass rate
is 80. -/
theorem C6_overall_pass_rate_witness :
    calculate_test_execution_metrics
        [⟨none, 10, 8, 2, 0⟩, ⟨none, 10, 9, 1, 0⟩, ⟨none, 10, 7, 3, 0⟩]
      = some ⟨3, 30, 10, 24, 6, 0, 80, 80⟩ ∧
    (0 ≤ (80 : ℚ) ∧ (80 : ℚ) ≤ 100) := by
  have h : calculate_test_execution_metrics
      [⟨none, 10, 8, 2, 0⟩, ⟨none, 10, 9, 1, 0⟩, ⟨none, 10, 7, 3, 0⟩]
      = some ⟨3, 30, 10, 24, 6, 0, 80, 80⟩ := by
    unfold calculate_test_execution_metrics
    rw [if_neg (by decide)]
    simp only [Option.some.injEq, ExecMetrics.mk.injEq]
    refine ⟨by decide, by decide, ?_, by decide, by decide, by decide, ?_, ?_⟩
    · show listMean [(10 : ℚ), 10, 10] = 10
      norm_num [listMean]
    · unfold overall_pass_rate
      rw [if_pos (by decide)]
      show ((24 : ℕ) : ℚ) / (((24 : ℕ) : ℚ) + ((6 : ℕ) : ℚ)) * 100 = 80
      norm_num
    · unfold _calculate_avg_pass_rate
      rw [if_neg (by decide), if_pos (by decide), passRatesOf_eq]
      show listMean [launchPassRate ⟨none, 10, 8, 2, 0⟩,
        launchPassRate ⟨none, 10, 9, 1, 0⟩, launchPassRate ⟨none, 10, 7, 3, 0⟩] = 80
      norm_num [listMean, launchPassRate]
  have hb := C6_overall_pass_rate _ _ h
  exact ⟨h, hb.2.2.1, hb.2.2.2⟩

/-- C7: avg_pass_rate is the arithmetic mean of the per-launch pass rates
over exactly the launches with a positive decisive count (0 when none
qualifies), and pass_rate_std is the sample standard deviation of those
same rates, 0 when fewer than two launches qualify. -/
theorem C7_avg_and_std (ls : List Launch) :
    passRatesOf ls
      = (ls.filter (fun l => 0 < l.passed + l.failed)).map launchPassRate ∧
    _calculate_avg_pass_rate ls
      = (if (ls.filter (fun l => 0 < l.passed + l.failed)) = [] then 0
         else listMean
           ((ls.filter (fun l => 0 < l.passed + l.failed)).map launchPassRate)) ∧
    ((ls.filter (fun l => 0 < l.passed + l.failed)).length < 2 →
      _calculate_pass_rate_std ls = 0) ∧
    (2 ≤ (ls.filter (fun l => 0 < l.passed + l.failed)).length →
      _calculate_pass_rate_std ls
        = Real.sqrt (sampleVariance
            ((ls.filter (fun l => 0 < l.passed + l.failed)).map launchPassRate))) := by
  have hq := passRatesOf_eq ls
  have hlen : (passRatesOf ls).length
      = (ls.filter (fun l => 0 < l.passed + l.failed)).length := by
    rw [hq, List.length_map]
  refine ⟨hq, ?_, ?_, ?_⟩
  · unfold _calculate_avg_pass_rate
    rcases eq_or_ne ls [] with rfl | hne
    · rfl
    · rw [if_neg hne, hq]
      rcases eq_or_ne (ls.filter (fun l => 0 < l.passed + l.failed)) [] with hf | hf
      · rw [hf, List.map_nil, if_neg (by norm_num), if_pos rfl]
      · rw [if_pos (fun hm => hf (List.map_eq_nil_iff.mp hm)), if_neg hf]
  · intro hlt
    unfold _calculate_pass_rate_std
    rcases eq_or_ne ls [] with rfl | hne
    · rw [if_pos rfl]
    · rw [if_neg hne, if_neg (by omega)]
  · intro hge
    have hne : ls ≠ [] := by
      intro hnil
      subst hnil
      rw [List.filter_nil] at hge
      exact absurd hge (by norm_num)
    unfold _calculate_pass_rate_std
    rw [if_neg hne, if_pos (by omega), hq]

/-- C7 witness: a single qualifying launch, whose standard deviation is 0,
and two qualifying launches, whose deviation is the square root of the
sample variance of the two rates. -/
theorem C7_avg_and_std_witness :
    (([⟨none, 10, 8, 2, 0⟩] : List Launch).filter
        (fun l => 0 < l.passed + l.failed)).length < 2 ∧
    _calculate_pass_rate_std [⟨none, 10, 8, 2, 0⟩] = 0 ∧
    _calculate_avg_pass_rate [⟨none, 10, 8, 2, 0⟩]
      = listMean ((([⟨none, 10, 8, 2, 0⟩] : List Launch).filter
          (fun l => 0 < l.passed + l.failed)).map launchPassRate) := by
  refine ⟨by decide, (C7_avg_and_std [⟨none, 10, 8, 2, 0⟩]).2.2.1 (by decide), ?_⟩
  have h := (C7_avg_and_std [⟨none, 10, 8, 2, 0⟩]).2.1
  rw [h, if_neg (by decide)]

/-! ## Claims about flaky test detection -/

theorem flakyRecordFor_test_name {minOcc : ℕ} {n : String} {s : List String}
    {r : FlakyRecord} (h : flakyRecordFor minOcc n s = some r) :
    r.test_name = n := by
  unfold flakyRecordFor at h
  split_ifs at h <;> simp_all <;> exact h ▸ rfl

theorem flakyRecordFor_isSome_iff {minOcc : ℕ} {n : String} {s : List String} :
    (flakyRecordFor minOcc n s).isSome
      ↔ (minOcc ≤ s.length ∧ 1 < (firstDedup s).length ∧
         0 < s.count "PASSED" ∧ 0 < s.count "FAILED") := by
  unfold flakyRecordFor
  split_ifs with h1 h2 h3 h4 <;> simp_all

theorem statusesOf_nil_iff {name : String} :
    ∀ {occ : List (String × String)},
      occ.filterMap (fun p => if p.1 = name then some p.2 else none) = []
        ↔ name ∉ occ.map Prod.fst
  | [] => by simp
  | p :: t => by
    rw [List.filterMap_cons]
    by_cases h : p.1 = name
    · rw [if_pos h]
      simp [h.symm]
    · rw [if_neg h]
      rw [@statusesOf_nil_iff name t]
      simp only [List.map_cons, List.mem_cons]
      constructor
      · intro ht hc
        rcases hc with hc | hc
        · exact h hc.symm
        · exact ht hc
      · intro ht hc
        exact ht (Or.inr hc)

theorem mem_detect_iff {data : TestItemsData} {minOcc : ℕ} {name : String} :
    name ∈ (detect_flaky_tests data minOcc).map FlakyRecord.test_name
      ↔ name ∈ testNames data ∧
        (flakyRecordFor minOcc name (statusesOf data name)).isSome := by
  unfold detect_flaky_tests detectCore
  rw [List.mem_map]
  constructor
  · rintro ⟨r, hr, htn⟩
    rw [mem_sortByScoreDesc, List.mem_filterMap] at hr
    rcases hr with ⟨n, hn, hg⟩
    have he : r.test_name = n := flakyRecordFor_test_name hg
    rw [← htn, he]
    refine ⟨hn, ?_⟩
    rw [show statusesOf data n
        = (allOccurrences data).filterMap
            (fun p => if p.1 = n then some p.2 else none) from rfl, hg]
    rfl
  · rintro ⟨hn, hs⟩
    rcases Option.isSome_iff_exists.mp hs with ⟨r, hr⟩
    refine ⟨r, ?_, flakyRecordFor_test_name hr⟩
    rw [mem_sortByScoreDesc, List.mem_filterMap]
    exact ⟨name, hn, hr⟩

/-- C2: detect_flaky_tests reports a test name exactly when its aggregated
occurrences number at least min_occurrences, carry more than one distinct
status, and include at least one PASSED and at least one FAILED; in
particular a test seen exactly min_occurrences - 1 times is never
reported, and a test whose statuses are only PASSED and SKIPPED is never
reported. -/
theorem C2_flaky_report_iff (data : TestItemsData) (minOcc : ℕ) (name : String) :
    (name ∈ (detect_flaky_tests data minOcc).map FlakyRecord.test_name
      ↔ (minOcc ≤ (statusesOf data name).length ∧
         1 < (firstDedup (statusesOf data name)).length ∧
         1 ≤ (statusesOf data name).count "PASSED" ∧
         1 ≤ (statusesOf data name).count "FAILED")) ∧
    ((statusesOf data name).length = minOcc - 1 →
      name ∉ (detect_flaky_tests data minOcc).map FlakyRecord.test_name) ∧
    ((∀ s ∈ statusesOf data name, s = "PASSED" ∨ s = "SKIPPED") →
      name ∉ (detect_flaky_tests data minOcc).map FlakyRecord.test_name) := by
  have hiff : name ∈ (detect_flaky_tests data minOcc).map FlakyRecord.test_name
      ↔ (minOcc ≤ (statusesOf data name).length ∧
         1 < (firstDedup (statusesOf data name)).length ∧
         1 ≤ (statusesOf data name).count "PASSED" ∧
         1 ≤ (statusesOf data name).count "FAILED") := by
    rw [mem_detect_iff, flakyRecordFor_isSome_iff]
    constructor
    · rintro ⟨_, h⟩
      exact h
    · intro h
      refine ⟨?_, h⟩
      unfold testNames
      rw [mem_firstDedup]
      by_contra hmem
      have : statusesOf data name = [] := statusesOf_nil_iff.mpr hmem
      rw [this] at h
      simp at h
  refine ⟨hiff, ?_, ?_⟩
  · intro hl hmem
    rcases hiff.mp hmem with ⟨h1, _, h3, _⟩
    have hc : (statusesOf data name).count "PASSED"
        ≤ (statusesOf data name).length := List.count_le_length _ _
    omega
  · intro hps hmem
    rcases hiff.mp hmem with ⟨_, _, _, h4⟩
    have : "FAILED" ∈ statusesOf data name := by
      have := List.count_pos_iff.mp (by omega : 0 < (statusesOf data name).count "FAILED")
      exact this
    rcases hps _ this with h | h <;> simp at h

/-- C2 witness: the spec scenario of a test with statuses PASSED, SKIPPED,
PASSED, SKIPPED, never FAILED, is not reported even with four
occurrences. -/
theorem C2_flaky_report_iff_witness :
    (∀ s ∈ statusesOf
        [("L1", [⟨some "a", some "PASSED", none, none⟩]),
         ("L2", [⟨some "a", some "SKIPPED", none, none⟩]),
         ("L3", [⟨some "a", some "PASSED", none, none⟩]),
         ("L4", [⟨some "a", some "SKIPPED", none, none⟩])] "a",
      s = "PASSED" ∨ s = "SKIPPED") ∧
    "a" ∉ (detect_flaky_tests
        [("L1", [⟨some "a", some "PASSED", none, none⟩]),
         ("L2", [⟨some "a", some "SKIPPED", none, none⟩]),
         ("L3", [⟨some "a", some "PASSED", none, none⟩]),
         ("L4", [⟨some "a", some "SKIPPED", none, none⟩])] 3).map
      FlakyRecord.test_name :=
  ⟨by decide,
   (C2_flaky_report_iff
      [("L1", [⟨some "a", some "PASSED", none, none⟩]),
       ("L2", [⟨some "a", some "SKIPPED", none, none⟩]),
       ("L3", [⟨some "a", some "PASSED", none, none⟩]),
       ("L4", [⟨some "a", some "SKIPPED", none, none⟩])] 3 "a").2.2 (by decide)⟩

theorem flakyRecordFor_fields {minOcc : ℕ} {n : String} {s : List String}
    {r : FlakyRecord} (h : flakyRecordFor minOcc n s = some r) :
    r.total_runs = s.length ∧
    r.flaky_score
      = (if 1 < s.length then ((switches s : ℚ) / ((s.length : ℚ) - 1)) * 100
         else 0) := by
  unfold flakyRecordFor at h
  split_ifs at h with h1 h2 h3 h4
  · injection h with h
    subst h
    rw [if_pos h4]
    exact ⟨rfl, rfl⟩
  · injection h with h
    subst h
    rw [if_neg h4]
    exact ⟨rfl, rfl⟩

/-- The three-run PASSED, FAILED, PASSED scenario of the specification. -/
def dataPFP : TestItemsData :=
  [("L1", [⟨some "t", some "PASSED", none, none⟩]),
   ("L2", [⟨some "t", some "FAILED", none, none⟩]),
   ("L3", [⟨some "t", some "PASSED", none, none⟩])]

/-- C5: every reported flaky record carries flaky_score equal to
100 * switches / (total_runs - 1) over its aggregated status sequence,
0 when total_runs is at most 1; and the PASSED, FAILED, PASSED test of
the specification scenario is reported with score 100. -/
theorem C5_flaky_score (data : TestItemsData) (minOcc : ℕ) :
    (∀ r ∈ detect_flaky_tests data minOcc,
      r.flaky_score
        = (if r.total_runs ≤ 1 then 0
           else 100 * (switches (statusesOf data r.test_name) : ℚ)
              / ((r.total_runs : ℚ) - 1))) ∧
    (detect_flaky_tests dataPFP 3).map (fun r => (r.test_name, r.flaky_score))
      = [("t", 100)] := by
  constructor
  · intro r hr
    unfold detect_flaky_tests detectCore at hr
    rw [mem_sortByScoreDesc, List.mem_filterMap] at hr
    rcases hr with ⟨n, _, hg⟩
    have htn : r.test_name = n := flakyRecordFor_test_name hg
    have hst : statusesOf data n
        = (allOccurrences data).filterMap
            (fun p => if p.1 = n then some p.2 else none) := rfl
    rw [← hst] at hg
    rcases flakyRecordFor_fields hg with ⟨hruns, hscore⟩
    rw [htn, hscore, hruns]
    by_cases hl : 1 < (statusesOf data n).length
    · rw [if_pos hl, if_neg (by omega)]
      ring
    · rw [if_neg hl, if_pos (by omega)]
  · have h : detect_flaky_tests dataPFP 3
        = [⟨"t", 3, 2, 1, 0, ((2 : ℕ) : ℚ) / (((3 : ℕ) : ℚ) - 1) * 100,
            [("PASSED", 2), ("FAILED", 1)]⟩] := rfl
    rw [h]
    simp only [List.map_cons, List.map_nil]
    norm_num

/-- C5 witness: the theorem applied to the record reported for the
scenario data, discharging the membership hypothesis there. -/
theorem C5_flaky_score_witness :
    (⟨"t", 3, 2, 1, 0, ((2 : ℕ) : ℚ) / (((3 : ℕ) : ℚ) - 1) * 100,
        [("PASSED", 2), ("FAILED", 1)]⟩ : FlakyRecord)
      ∈ detect_flaky_tests dataPFP 3 ∧
    (⟨"t", 3, 2, 1, 0, ((2 : ℕ) : ℚ) / (((3 : ℕ) : ℚ) - 1) * 100,
        [("PASSED", 2), ("FAILED", 1)]⟩ : FlakyRecord).flaky_score
      = (if (3 : ℕ) ≤ 1 then 0
         else 100 * (switches (statusesOf dataPFP "t") : ℚ) / (((3 : ℕ) : ℚ) - 1)) := by
  have hmem : (⟨"t", 3, 2, 1, 0, ((2 : ℕ) : ℚ) / (((3 : ℕ) : ℚ) - 1) * 100,
      [("PASSED", 2), ("FAILED", 1)]⟩ : FlakyRecord)
      ∈ detect_flaky_tests dataPFP 3 := by
    rw [show detect_flaky_tests dataPFP 3
        = [⟨"t", 3, 2, 1, 0, ((2 : ℕ) : ℚ) / (((3 : ℕ) : ℚ) - 1) * 100,
            [("PASSED", 2), ("FAILED", 1)]⟩] from rfl]
    exact List.mem_singleton.mpr rfl
  exact ⟨hmem, (C5_flaky_score dataPFP 3).1 _ hmem⟩

/-- C10: a test item whose name or status is missing or empty is ignored
by detect_flaky_tests wherever it sits in the input: the aggregated
occurrences, every status list, and the reported records are those of the
input without the item. -/
theorem C10_invalid_items_ignored (pre post : TestItemsData) (lid : String)
    (items₁ items₂ : List TestItem) (bad : TestItem) (minOcc : ℕ)
    (hbad : bad.name.getD "" = "" ∨ bad.status.getD "" = "") :
    allOccurrences (pre ++ (lid, items₁ ++ bad :: items₂) :: post)
      = allOccurrences (pre ++ (lid, items₁ ++ items₂) :: post) ∧
    (∀ name, statusesOf (pre ++ (lid, items₁ ++ bad :: items₂) :: post) name
      = statusesOf (pre ++ (lid, items₁ ++ items₂) :: post) name) ∧
    detect_flaky_tests (pre ++ (lid, items₁ ++ bad :: items₂) :: post) minOcc
      = detect_flaky_tests (pre ++ (lid, items₁ ++ items₂) :: post) minOcc := by
  have hg : (if bad.name.getD "" ≠ "" ∧ bad.status.getD "" ≠ "" then
      some (bad.name.getD "", bad.status.getD "") else none) = none := by
    rcases hbad with h | h <;> simp [h]
  have hA : allOccurrences (pre ++ (lid, items₁ ++ bad :: items₂) :: post)
      = allOccurrences (pre ++ (lid, items₁ ++ items₂) :: post) := by
    unfold allOccurrences
    simp only [List.flatMap_append, List.flatMap_cons, List.filterMap_append,
      List.filterMap_cons]
    rw [hg]
  refine ⟨hA, ?_, ?_⟩
  · intro name
    unfold statusesOf
    rw [hA]
  · unfold detect_flaky_tests
    rw [hA]

/-- C10 witness: an item with an empty status inserted into a concrete
launch changes neither the status list of its test nor the report. -/
theorem C10_invalid_items_ignored_witness :
    ((⟨some "t", some "", none, none⟩ : TestItem).name.getD "" = ""
      ∨ (⟨some "t", some "", none, none⟩ : TestItem).status.getD "" = "") ∧
    statusesOf [("L", [⟨some "t", some "PASSED", none, none⟩,
        ⟨some "t", some "", none, none⟩])] "t"
      = statusesOf [("L", [⟨some "t", some "PASSED", none, none⟩])] "t" ∧
    detect_flaky_tests [("L", [⟨some "t", some "PASSED", none, none⟩,
        ⟨some "t", some "", none, none⟩])] 3
      = detect_flaky_tests [("L", [⟨some "t", some "PASSED", none, none⟩])] 3 := by
  have h := C10_invalid_items_ignored [] []
    "L" [⟨some "t", some "PASSED", none, none⟩] [] ⟨some "t", some "", none, none⟩ 3
    (Or.inr rfl)
  exact ⟨Or.inr rfl, h.2.1 "t", h.2.2⟩

/-! ## Claims about duration analytics -/

/-- The duration scenario of the specification: items with 1000, 3000 and
0 milliseconds. -/
def dataDur : TestItemsData :=
  [("L", [⟨some "a", some "PASSED", none, some 1000⟩,
          ⟨some "b", some "PASSED", none, some 3000⟩,
          ⟨some "c", some "PASSED", none, some 0⟩])]

/-- C8: duration analytics is the empty report exactly when no item has a
positive duration; otherwise its average and count range over exactly the
positive durations converted to seconds, and the specification scenario
with durations 1000, 3000 and 0 ms yields average 2 seconds over 2
counted items. -/
theorem C8_duration_analytics (data : TestItemsData) :
    (calculate_test_duration_analytics data = none
      ↔ positiveDurations data = []) ∧
    (∀ a, calculate_test_duration_analytics data = some a →
      a.avg_test_duration = listMean (positiveDurations data) ∧
      a.total_tests_with_duration = (positiveDurations data).length) ∧
    (calculate_test_duration_analytics dataDur).map
        (fun a => (a.avg_test_duration, a.total_tests_with_duration))
      = some (2, 2) := by
  refine ⟨?_, ?_, ?_⟩
  · unfold calculate_test_duration_analytics
    rcases eq_or_ne data [] with rfl | hne
    · rw [if_pos rfl]
      simp [positiveDurations]
    · rw [if_neg hne]
      split
      · simp [*]
      · simp [*]
  · intro a ha
    unfold calculate_test_duration_analytics at ha
    rcases eq_or_ne data [] with rfl | hne
    · rw [if_pos rfl] at ha
      exact Option.noConfusion ha
    · rw [if_neg hne] at ha
      split at ha
      · exact Option.noConfusion ha
      · injection ha with ha
        subst ha
        rename_i heq
        rw [heq]
        exact ⟨rfl, rfl⟩
  · have h : (calculate_test_duration_analytics dataDur).map
        (fun a => (a.avg_test_duration, a.total_tests_with_duration))
        = some (listMean ((1000 : ℚ) / 1000 :: [(3000 : ℚ) / 1000]), 2) := rfl
    rw [h]
    norm_num [listMean]

/-- C8 witness: the some-case of the theorem applied to the scenario data,
the hypothesis discharged by computation. -/
theorem C8_duration_analytics_witness :
    calculate_test_duration_analytics dataDur
      = some ⟨listMean ((1000 : ℚ) / 1000 :: [(3000 : ℚ) / 1000]),
          min ((1000 : ℚ) / 1000) ((3000 : ℚ) / 1000),
          max ((1000 : ℚ) / 1000) ((3000 : ℚ) / 1000), 2⟩ ∧
    (⟨listMean ((1000 : ℚ) / 1000 :: [(3000 : ℚ) / 1000]),
        min ((1000 : ℚ) / 1000) ((3000 : ℚ) / 1000),
        max ((1000 : ℚ) / 1000) ((3000 : ℚ) / 1000), 2⟩ :
          DurationAnalytics).avg_test_duration
      = listMean (positiveDurations dataDur) ∧
    (⟨listMean ((1000 : ℚ) / 1000 :: [(3000 : ℚ) / 1000]),
        min ((1000 : ℚ) / 1000) ((3000 : ℚ) / 1000),
        max ((1000 : ℚ) / 1000) ((3000 : ℚ) / 1000), 2⟩ :
          DurationAnalytics).total_tests_with_duration
      = (positiveDurations dataDur).length := by
  have h := (C8_duration_analytics dataDur).2.1 _ (rfl :
    calculate_test_duration_analytics dataDur
      = some ⟨listMean ((1000 : ℚ) / 1000 :: [(3000 : ℚ) / 1000]),
          min ((1000 : ℚ) / 1000) ((3000 : ℚ) / 1000),
          max ((1000 : ℚ) / 1000) ((3000 : ℚ) / 1000), 2⟩)
  exact ⟨rfl, h.1, h.2⟩

/-! ## Claims about the historical comparison -/

theorem metricKeys_spec {rm hm : Option PartitionMetrics}
    {f : PartitionMetrics → ℚ} {c r h : ℚ}
    (hc : metricKeys rm hm f = some (c, r, h)) :
    h ≠ 0 ∧ c = 100 * (r - h) / h := by
  unfold metricKeys at hc
  dsimp only at hc
  split_ifs at hc with hpos
  · injection hc with hc
    rw [Prod.ext_iff] at hc
    rcases hc with ⟨hc1, hc23⟩
    rw [Prod.ext_iff] at hc23
    rcases hc23 with ⟨hc2, hc3⟩
    dsimp only at hc1 hc2 hc3
    subst hc2
    subst hc3
    refine ⟨by intro h0; rw [h0] at hpos; exact lt_irrefl 0 hpos, ?_⟩
    rw [← hc1]
    ring

/-- C9: the historical comparison returns the empty mapping whenever the
recent partition is empty, the historical partition is empty, or no
launch carries a start time; and whenever a metric triple of change,
recent and historical values is emitted, the historical value is nonzero
and the change equals 100 * (recent - historical) / historical. -/
theorem C9_historical_comparison (ls : List Launch) (execCalled : Bool)
    (nowMs daysBack : ℤ) :
    ((partitionRecent ls (nowMs - daysBack * msPerDay) = [] ∨
      partitionHist ls (nowMs - daysBack * msPerDay) = [] ∨
      (∀ l ∈ ls, l.startTime = none)) →
      generate_historical_comparison ls execCalled nowMs daysBack
        = emptyComparison) ∧
    (∀ c r h,
      (generate_historical_comparison ls execCalled nowMs daysBack).avg_pass_rate_keys
        = some (c, r, h) → h ≠ 0 ∧ c = 100 * (r - h) / h) ∧
    (∀ c r h,
      (generate_historical_comparison ls execCalled nowMs daysBack).avg_tests_per_launch_keys
        = some (c, r, h) → h ≠ 0 ∧ c = 100 * (r - h) / h) ∧
    (∀ c r h,
      (generate_historical_comparison ls execCalled nowMs daysBack).total_tests_keys
        = some (c, r, h) → h ≠ 0 ∧ c = 100 * (r - h) / h) := by
  unfold generate_historical_comparison
  rcases eq_or_ne ls [] with rfl | hne
  · rw [if_pos rfl]
    exact ⟨fun _ => rfl,
      fun c r h hc => Option.noConfusion hc,
      fun c r h hc => Option.noConfusion hc,
      fun c r h hc => Option.noConfusion hc⟩
  · rw [if_neg hne]
    by_cases hcol : (execCalled && ls.any (fun l => l.startTime.isSome)) = true
    · rw [if_neg (by simp [hcol])]
      dsimp only
      by_cases hdeg : partitionRecent ls (nowMs - daysBack * msPerDay) = [] ∨
          partitionHist ls (nowMs - daysBack * msPerDay) = []
      · rw [if_pos hdeg]
        exact ⟨fun _ => rfl,
          fun c r h hc => Option.noConfusion hc,
          fun c r h hc => Option.noConfusion hc,
          fun c r h hc => Option.noConfusion hc⟩
      · rw [if_neg hdeg]
        refine ⟨?_, fun c r h hc => metricKeys_spec hc,
          fun c r h hc => metricKeys_spec hc,
          fun c r h hc => metricKeys_spec hc⟩
        intro hcase
        rcases hcase with hcase | hcase | hcase
        · exact absurd (Or.inl hcase) hdeg
        · exact absurd (Or.inr hcase) hdeg
        · exfalso
          rcases (Bool.and_eq_true _ _).mp hcol with ⟨_, hany⟩
          rcases List.any_eq_true.mp hany with ⟨l, hl, hsome⟩
          rw [hcase l hl] at hsome
          exact Bool.noConfusion hsome
    · rw [if_pos (by simpa using hcol)]
      exact ⟨fun _ => rfl,
        fun c r h hc => Option.noConfusion hc,
        fun c r h hc => Option.noConfusion hc,
        fun c r h hc => Option.noConfusion hc⟩

/-- C9 witness: with both launches inside the recent window the historical
partition is empty and the comparison is the empty mapping. -/
theorem C9_historical_comparison_witness :
    partitionHist [⟨some 8600000000, 10, 8, 2, 0⟩, ⟨some 8500000000, 10, 5, 5, 0⟩]
        (8640000000 - 30 * msPerDay) = [] ∧
    generate_historical_comparison
        [⟨some 8600000000, 10, 8, 2, 0⟩, ⟨some 8500000000, 10, 5, 5, 0⟩]
        true 8640000000 30
      = emptyComparison :=
  ⟨by decide,
   (C9_historical_comparison
      [⟨some 8600000000, 10, 8, 2, 0⟩, ⟨some 8500000000, 10, 5, 5, 0⟩]
      true 8640000000 30).1 (Or.inr (Or.inl (by decide)))⟩

/-! ## The purity claim -/

/-- The two launches of the state-dependence counterexample: one inside
the 30-day window before the reference time, one outside it. -/
def L4 : List Launch :=
  [⟨some 6912000000, 10, 8, 2, 0⟩, ⟨some 864000000, 10, 5, 5, 0⟩]

/-- The trends section of generate_executive_summary (lines 213-245): the
summary first runs calculate_test_execution_metrics (line 215), which
creates the start_time column, and then calls
generate_historical_comparison (line 219) with the default 30-day
window, so its trends are the after-metrics comparison at the current
wall clock. -/
def executiveSummaryTrends (ls : List Launch) (nowMs : ℤ) : HistComparison :=
  generate_historical_comparison ls true nowMs 30

/-- C4 counterexample: with identical constructor inputs, the historical
comparison differs between an instance on which the execution metrics
were computed first and a fresh instance, and the trends section of the
executive summary differs between two wall-clock instants, so neither
operation is a function of the constructor inputs alone. -/
theorem C4_not_pure_counterexample :
    generate_historical_comparison L4 true 8640000000 30
      ≠ generate_historical_comparison L4 false 8640000000 30 ∧
    executiveSummaryTrends L4 8640000000
      ≠ executiveSummaryTrends L4 17280000000 := by
  constructor
  · intro hEq
    have h3 : (generate_historical_comparison L4 true 8640000000 30).total_tests_keys.isSome
        = true := by decide
    rw [hEq] at h3
    exact absurd h3 (by decide)
  · intro hEq
    have h3 : (executiveSummaryTrends L4 8640000000).total_tests_keys.isSome
        = true := by decide
    rw [hEq] at h3
    exact absurd h3 (by decide)

/-- C4 amended: a fresh instance, one on which
calculate_test_execution_metrics has not yet run, returns the constant
empty mapping from generate_historical_comparison whatever the
constructor inputs and the wall clock say; the trends section of the
executive summary equals the after-metrics comparison at the current
clock with the default 30-day window, and its clock dependence vanishes
on inputs without start times, where it is the empty mapping. -/
theorem C4_amended_dependencies (ls : List Launch) (nowMs daysBack : ℤ) :
    generate_historical_comparison ls false nowMs daysBack = emptyComparison ∧
    executiveSummaryTrends ls nowMs
      = generate_historical_comparison ls true nowMs 30 ∧
    ((∀ l ∈ ls, l.startTime = none) →
      executiveSummaryTrends ls nowMs = emptyComparison) := by
  refine ⟨?_, rfl, ?_⟩
  · unfold generate_historical_comparison
    rcases eq_or_ne ls [] with rfl | hne
    · rw [if_pos rfl]
    · rw [if_neg hne, if_pos (by simp)]
  · intro hnone
    unfold executiveSummaryTrends generate_historical_comparison
    rcases eq_or_ne ls [] with rfl | hne
    · rw [if_pos rfl]
    · have hcol : ¬ ((true && ls.any (fun l => l.startTime.isSome)) = true) := by
        simp only [Bool.true_and]
        intro hany
        rcases List.any_eq_true.mp hany with ⟨l, hl, hsome⟩
        rw [hnone l hl] at hsome
        exact Bool.noConfusion hsome
      rw [if_neg hne, if_pos hcol]

/-- C4 witness: the amended theorem applied to a single launch without a
start time, discharging the start-time-free hypothesis there. -/
theorem C4_amended_dependencies_witness :
    (∀ l ∈ ([⟨none, 10, 8, 2, 0⟩] : List Launch), l.startTime = none) ∧
    executiveSummaryTrends [⟨none, 10, 8, 2, 0⟩] 8640000000 = emptyComparison ∧
    generate_historical_comparison [⟨none, 10, 8, 2, 0⟩] false 8640000000 30
      = emptyComparison :=
  ⟨by decide,
   (C4_amended_dependencies [⟨none, 10, 8, 2, 0⟩] 8640000000 30).2.2 (by decide),
   (C4_amended_dependencies [⟨none, 10, 8, 2, 0⟩] 8640000000 30).1⟩

/-! ## Claims about failure pattern extraction -/

/-- C3 counterexample: a FAILED item with an empty description receives no
signature at all -- the guard of lines 304-305 returns None before the
Unknown Error fallback is reached -- so the item is grouped under no key
of failure_patterns and total_unique_failures stays 0. -/
theorem C3_empty_description_counterexample :
    (⟨some "t", some "FAILED", some "", none⟩ : TestItem).status.getD ""
      = "FAILED" ∧
    _extract_error_pattern "" = none ∧
    failedEntries [("L1", [⟨some "t", some "FAILED", some "", none⟩])] = [] ∧
    total_unique_failures [("L1", [⟨some "t", some "FAILED", some "", none⟩])]
      = 0 := by
  decide

/-- C3 amended: every FAILED item with a nonempty description is assigned
exactly one signature -- the first matching known pattern, else the first
error-like word, else the literal Unknown Error -- and is grouped under
that signature in failure_patterns and counted in total_unique_failures;
a FAILED item with an empty description is assigned none and is excluded. -/
theorem C3_failure_signature (data : TestItemsData) (lid : String)
    (items : List TestItem) (it : TestItem)
    (hmem : (lid, items) ∈ data) (hit : it ∈ items)
    (hst : it.status.getD "" = "FAILED") (hd : it.description.getD "" ≠ "") :
    ∃ sig, _extract_error_pattern (it.description.getD "") = some sig ∧
      (⟨it.name.getD "", lid, it.description.getD ""⟩ : FailureEntry)
        ∈ failurePatternsGet data sig ∧
      sig ∈ failurePatternKeys data ∧
      1 ≤ total_unique_failures data := by
  have hex : ∃ sig, _extract_error_pattern (it.description.getD "") = some sig := by
    unfold _extract_error_pattern
    rw [if_neg hd]
    split
    · exact ⟨_, rfl⟩
    · split
      · exact ⟨_, rfl⟩
      · exact ⟨_, rfl⟩
  obtain ⟨sig, hsig⟩ := hex
  have hpair : (sig, (⟨it.name.getD "", lid, it.description.getD ""⟩ : FailureEntry))
      ∈ failedEntries data := by
    unfold failedEntries
    rw [List.mem_flatMap]
    refine ⟨(lid, items), hmem, ?_⟩
    rw [List.mem_filterMap]
    refine ⟨it, hit, ?_⟩
    rw [if_pos hst, hsig]
  have hkey : sig ∈ failurePatternKeys data := by
    unfold failurePatternKeys
    rw [mem_firstDedup, List.mem_map]
    exact ⟨_, hpair, rfl⟩
  refine ⟨sig, hsig, ?_, hkey, ?_⟩
  · unfold failurePatternsGet
    rw [List.mem_filterMap]
    exact ⟨_, hpair, by rw [if_pos rfl]⟩
  · exact List.length_pos.mpr (List.ne_nil_of_mem hkey)

/-- A launch with a single FAILED item carrying an assertion message. -/
def dataFail : TestItemsData :=
  [("L1", [⟨some "t", some "FAILED", some "boom AssertionError", none⟩])]

/-- C3 witness: the amended theorem applied to the assertion-failure item,
whose signature is the known pattern AssertionError. -/
theorem C3_failure_signature_witness :
    _extract_error_pattern "boom AssertionError" = some "AssertionError" ∧
    (⟨"t", "L1", "boom AssertionError"⟩ : FailureEntry)
      ∈ failurePatternsGet dataFail "AssertionError" ∧
    "AssertionError" ∈ failurePatternKeys dataFail ∧
    1 ≤ total_unique_failures dataFail := by
  have hconc : _extract_error_pattern "boom AssertionError"
      = some "AssertionError" := by decide
  obtain ⟨sig, hsig, hin, hk, ht⟩ := C3_failure_signature dataFail "L1"
    [⟨some "t", some "FAILED", some "boom AssertionError", none⟩]
    ⟨some "t", some "FAILED", some "boom AssertionError", none⟩
    (List.mem_singleton.mpr rfl) (List.mem_singleton.mpr rfl) rfl (by decide)
  have hse : sig = "AssertionError" := by
    have hsig' : _extract_error_pattern "boom AssertionError" = some sig := hsig
    rw [hconc] at hsig'
    injection hsig' with hsig'
    exact hsig'.symm
  subst hse
  exact ⟨hconc, hin, hk, ht⟩
